import Mathlib

/-!
Shallow embedding of the Pixie-sh/di-go dependency-injection container,
translated from the Go sources (registry.go, registry_types.go,
registry_create_functions / part_004, part_006 register functions,
part_001 context and configuration resolver).  Go's mutable maps are
rendered as explicit state passing; machine `error` values become an
explicit `Err` type; fallible functions return `Except`.
-/

namespace DiGo

/-! ## Error model (pixie-sh/errors-go collaborator)

The repository builds errors with `errors.New(msg…, code)`,
`errors.Wrap(inner, msg…, code)` and `err.WithNestedError(e)`, and asks
`errors.Has(err, code)` whether an error (or one nested inside it)
carries a given error code.  Error codes are declared in
error_codes.go; calls without a code are rendered with `plain`. -/

inductive ErrCode where
  | errorCreatingDependency
  | configurationLookup
  | dependencyMissing
  | dependencyTypeMismatch
  | structMapTypeMismatch
  | plain
  deriving DecidableEq, Repr

inductive Err where
  | new (msg : String) (code : ErrCode)
  | wrap (msg : String) (code : ErrCode) (inner : Err)
  | withNested (base : Err) (nested : Err)
  deriving DecidableEq, Repr

def errNew (msg : String) (code : ErrCode) : Err := .new msg code

def errWrap (inner : Err) (msg : String) (code : ErrCode) : Err := .wrap msg code inner

def Err.withNestedError (base nested : Err) : Err := .withNested base nested

/-- Embedding of `errors.Has(err, code)`: the error itself or some error
nested within it carries the code. -/
def errHas : Err → ErrCode → Bool
  | .new _ c, code => c == code
  | .wrap _ c inner, code => c == code || errHas inner code
  | .withNested b n, code => errHas b code || errHas n code

/-! ## RegistryOpts (registry_types.go)

The Go struct also carries the `Registry` to use and an optional
pre-resolved `ConfigNode`; in this embedding the acting registry is
passed explicitly to each operation, and only the fields the verified
claims inspect are kept. -/

structure RegistryOpts where
  injectionToken : String
  configNodePath : String
  deriving DecidableEq, Repr

/-! ## Hot-instance cache and diRegistry (registry.go)

`diRegistry` keeps three Go maps; maps are rendered as functions into
`Option`.  Factories stored in `registrations` are closures that in Go
mutate the registry's shared `hotInstances` map in place; here each
creator receives the hot map at invocation time and returns the updated
map together with its result. -/

def Hot (V : Type) : Type := String → Option V

def hotEmpty {V : Type} : Hot V := fun _ => none

/-- Cache key used by GetHotInstance / SetHotInstance:
`token + ":" + typeName` when the active opts carry a token, else the
type name alone. -/
def hotKey (opts : RegistryOpts) (typeName : String) : String :=
  if opts.injectionToken ≠ "" then opts.injectionToken ++ ":" ++ typeName else typeName

/-- Embedding of `diRegistry.GetHotInstance`. -/
def getHotInstance {V : Type} (hot : Hot V) (opts : RegistryOpts) (typeName : String) :
    Except Err V :=
  match hot (hotKey opts typeName) with
  | some v => .ok v
  | none => .error (errNew ("no hot instance found for: " ++ hotKey opts typeName)
      .dependencyMissing)

/-- Embedding of `diRegistry.SetHotInstance` (which never fails). -/
def setHotInstance {V : Type} (hot : Hot V) (opts : RegistryOpts) (typeName : String)
    (inst : V) : Hot V :=
  fun k => if k = hotKey opts typeName then some inst else hot k

/-- Type of stored instance creators: Go signature
`func(ctx Context, opts *RegistryOpts, c any) (any, error)`, with the
shared hot-instance map threaded explicitly. -/
def CreatorFn (C V : Type) : Type :=
  C → RegistryOpts → V → Hot V → Except Err V × Hot V

/-- Type of stored configuration creators:
`func(ctx Context, opts *RegistryOpts) (any, error)`. -/
def CfgCreatorFn (C V : Type) : Type :=
  C → RegistryOpts → Hot V → Except Err V × Hot V

structure DiRegistry (C V : Type) where
  registrations : String → Option (CreatorFn C V)
  configurationRegistrations : String → Option (CfgCreatorFn C V)
  hotInstances : Hot V

/-- Embedding of `NewRegistry()`. -/
def NewRegistry (C V : Type) : DiRegistry C V :=
  ⟨fun _ => none, fun _ => none, hotEmpty⟩

/-- Embedding of `diRegistry.Register`: last write wins, never fails. -/
def DiRegistry.register {C V : Type} (r : DiRegistry C V) (typeNameOf : String)
    (createFn : CreatorFn C V) : DiRegistry C V :=
  { r with registrations := fun k => if k = typeNameOf then some createFn else r.registrations k }

/-- Embedding of `diRegistry.RegisterConfiguration`. -/
def DiRegistry.registerConfiguration {C V : Type} (r : DiRegistry C V) (typeNameOf : String)
    (createCfgFn : CfgCreatorFn C V) : DiRegistry C V :=
  { r with configurationRegistrations :=
      fun k => if k = typeNameOf then some createCfgFn else r.configurationRegistrations k }

/-- Embedding of `diRegistry.Create`: `NotRegistered`-class failure when
no factory is stored, otherwise the stored creator runs against the
registry's current hot-instance map and its update is kept. -/
def DiRegistry.create {C V : Type} (r : DiRegistry C V) (ctx : C) (typeNameOf : String)
    (config : V) (opts : RegistryOpts) : Except Err V × DiRegistry C V :=
  match r.registrations typeNameOf with
  | none => (.error (errNew ("dependency not registered: " ++ typeNameOf) .dependencyMissing), r)
  | some reg =>
    let out := reg ctx opts config r.hotInstances
    (out.1, { r with hotInstances := out.2 })

/-- Embedding of `diRegistry.CreateConfiguration`. -/
def DiRegistry.createConfiguration {C V : Type} (r : DiRegistry C V) (ctx : C)
    (typeNameOf : String) (opts : RegistryOpts) : Except Err V × DiRegistry C V :=
  match r.configurationRegistrations typeNameOf with
  | none => (.error (errNew ("configuration dependency not registered: " ++ typeNameOf)
      .dependencyMissing), r)
  | some reg =>
    let out := reg ctx opts r.hotInstances
    (out.1, { r with hotInstances := out.2 })

/-! ## Singleton wrappers (part_006)

`fromHotMemoryRegisterNoConfig` / `fromHotMemoryRegisterWithConfig` wrap
an underlying factory: probe the hot cache, short-circuit on a hit,
otherwise run the factory, store and return its result.  The Go type
assertion `c.(CT)` is the identity on this embedding's opaque value
domain. -/

def fromHotMemoryRegisterNoConfig {C V : Type} (fn : C → RegistryOpts → Except Err V)
    (typeName : String) : C → RegistryOpts → Hot V → Except Err V × Hot V :=
  fun ctx opts hot =>
    match getHotInstance hot opts typeName with
    | .ok v => (.ok v, hot)
    | .error e =>
      if errHas e .dependencyMissing then
        match fn ctx opts with
        | .error e2 => (.error e2, hot)
        | .ok v => (.ok v, setHotInstance hot opts typeName v)
      else (.error e, hot)

def fromHotMemoryRegisterWithConfig {C V : Type} (fn : C → RegistryOpts → V → Except Err V)
    (typeName : String) : C → RegistryOpts → V → Hot V → Except Err V × Hot V :=
  fun ctx opts c hot =>
    match getHotInstance hot opts typeName with
    | .ok v => (.ok v, hot)
    | .error e =>
      if errHas e .dependencyMissing then
        match fn ctx opts c with
        | .error e2 => (.error e2, hot)
        | .ok v => (.ok v, setHotInstance hot opts typeName v)
      else (.error e, hot)

/-! ## Registration helpers (part_006)

`TypeName[T](token)` token-qualifies the derived type name exactly as
`typeKeyOf` below; the Go generic type parameter is erased here to its
derived name string `tName`. -/

def typeKeyOf (tName : String) (token : String) : String :=
  if token ≠ "" then token ++ ":" ++ tName else tName

/-- Embedding of `PairTypeName`. -/
def PairTypeName (first second : String) : String := first ++ ";" ++ second

/-- Embedding of `registerSingleWithToken`: stores under
`TypeName[T](token)` a closure ignoring the config argument and
delegating to the no-config hot-memory wrapper. -/
def registerSingleWithToken {C V : Type} (r : DiRegistry C V) (tName : String)
    (fn : C → RegistryOpts → Except Err V) (opts : RegistryOpts) : DiRegistry C V :=
  let tType := typeKeyOf tName opts.injectionToken
  r.register tType (fun ctx opts2 _ hot => fromHotMemoryRegisterNoConfig fn tType ctx opts2 hot)

/-- Embedding of `registerSingleConfigurationWithToken`. -/
def registerSingleConfigurationWithToken {C V : Type} (r : DiRegistry C V) (tName : String)
    (fn : C → RegistryOpts → Except Err V) (opts : RegistryOpts) : DiRegistry C V :=
  let tType := typeKeyOf tName opts.injectionToken
  r.registerConfiguration tType (fromHotMemoryRegisterNoConfig fn tType)

/-- Embedding of `registerPairWithToken`: the configuration side is
stored under `PairTypeName(ctType, tType)` and the instance side under
`PairTypeName(tType, ctType)`, both hot-memory wrapped. -/
def registerPairWithToken {C V : Type} (r : DiRegistry C V) (tNameT tNameCT : String)
    (fn : C → RegistryOpts → V → Except Err V) (fnCT : C → RegistryOpts → Except Err V)
    (opts : RegistryOpts) : DiRegistry C V :=
  let ctType := typeKeyOf tNameCT opts.injectionToken
  let tType := typeKeyOf tNameT opts.injectionToken
  let r1 := r.registerConfiguration (PairTypeName ctType tType)
    (fromHotMemoryRegisterNoConfig fnCT (PairTypeName ctType tType))
  r1.register (PairTypeName tType ctType)
    (fromHotMemoryRegisterWithConfig fn (PairTypeName tType ctType))

/-! ## Creation pipeline (part_004)

`createSingleWithToken` asks the registry under the token-qualified
key; on a `DependencyMissing`-class failure it retries once with the
unqualified key.  Error messages in the source interpolate the
breadcrumb trail of the opaque context; the context is opaque in this
embedding so the messages carry the type name and token only.  The
final `SafeTypeAssert` is the identity on the opaque value domain. -/

def msgFirstTry (tType token : String) : String :=
  "failed to create dependency of type '" ++ tType ++ "' with token '" ++ token ++ "'"

def msgSecondTry (tType : String) : String :=
  "failed to create dependency '" ++ tType ++ "' without token"

def createSingleWithToken {C V : Type} (f : DiRegistry C V) (tName : String) (noopCfg : V)
    (ctx : C) (opts : RegistryOpts) : Except Err V × DiRegistry C V :=
  let token := opts.injectionToken
  let tType := typeKeyOf tName token
  let out := f.create ctx tType noopCfg opts
  match out.1 with
  | .ok v => (.ok v, out.2)
  | .error err =>
    if errHas err .dependencyMissing then
      let out2 := out.2.create ctx tName noopCfg opts
      match out2.1 with
      | .ok v => (.ok v, out2.2)
      | .error secErr =>
        (.error ((errWrap secErr (msgSecondTry tName) .errorCreatingDependency).withNestedError
          err), out2.2)
    else
      (.error (errWrap err (msgFirstTry tType token) .errorCreatingDependency), out.2)

/-! ## Helper lemmas for the singleton (hot-memory) wrappers -/

theorem fromHotNoConfig_hit {C V : Type} (fn : C → RegistryOpts → Except Err V)
    (tn : String) (ctx : C) (opts : RegistryOpts) (hot : Hot V) (v : V)
    (h : hot (hotKey opts tn) = some v) :
    fromHotMemoryRegisterNoConfig fn tn ctx opts hot = (.ok v, hot) := by
  simp [fromHotMemoryRegisterNoConfig, getHotInstance, h]

theorem fromHotWithConfig_hit {C V : Type} (fc : C → RegistryOpts → V → Except Err V)
    (tn : String) (ctx : C) (opts : RegistryOpts) (cfg : V) (hot : Hot V) (v : V)
    (h : hot (hotKey opts tn) = some v) :
    fromHotMemoryRegisterWithConfig fc tn ctx opts cfg hot = (.ok v, hot) := by
  simp [fromHotMemoryRegisterWithConfig, getHotInstance, h]

theorem fromHotNoConfig_key {C V : Type} (fn : C → RegistryOpts → Except Err V)
    (tn : String) (ctx : C) (opts : RegistryOpts) (hot hot1 : Hot V) (v : V)
    (h : fromHotMemoryRegisterNoConfig fn tn ctx opts hot = (.ok v, hot1)) :
    hot1 (hotKey opts tn) = some v := by
  cases hh : hot (hotKey opts tn) with
  | some w =>
    simp [fromHotMemoryRegisterNoConfig, getHotInstance, hh] at h
    rcases h with ⟨h1, h2⟩
    subst h1; subst h2; exact hh
  | none =>
    simp [fromHotMemoryRegisterNoConfig, getHotInstance, hh, errHas, errNew] at h
    cases fe : fn ctx opts with
    | error e => simp [fe] at h
    | ok w =>
      simp [fe] at h
      rcases h with ⟨h1, h2⟩
      subst h1; subst h2; simp [setHotInstance]

theorem fromHotNoConfig_repeat {C V : Type} (fn fn2 : C → RegistryOpts → Except Err V)
    (tn : String) (ctx ctx2 : C) (opts : RegistryOpts) (hot hot1 : Hot V) (v : V)
    (h : fromHotMemoryRegisterNoConfig fn tn ctx opts hot = (.ok v, hot1)) :
    fromHotMemoryRegisterNoConfig fn2 tn ctx2 opts hot1 = (.ok v, hot1) :=
  fromHotNoConfig_hit fn2 tn ctx2 opts hot1 v (fromHotNoConfig_key fn tn ctx opts hot hot1 v h)

theorem fromHotWithConfig_key {C V : Type} (fc : C → RegistryOpts → V → Except Err V)
    (tn : String) (ctx : C) (opts : RegistryOpts) (cfg : V) (hot hot1 : Hot V) (v : V)
    (h : fromHotMemoryRegisterWithConfig fc tn ctx opts cfg hot = (.ok v, hot1)) :
    hot1 (hotKey opts tn) = some v := by
  cases hh : hot (hotKey opts tn) with
  | some w =>
    simp [fromHotMemoryRegisterWithConfig, getHotInstance, hh] at h
    rcases h with ⟨h1, h2⟩
    subst h1; subst h2; exact hh
  | none =>
    simp [fromHotMemoryRegisterWithConfig, getHotInstance, hh, errHas, errNew] at h
    cases fe : fc ctx opts cfg with
    | error e => simp [fe] at h
    | ok w =>
      simp [fe] at h
      rcases h with ⟨h1, h2⟩
      subst h1; subst h2; simp [setHotInstance]

theorem fromHotWithConfig_repeat {C V : Type} (fc fc2 : C → RegistryOpts → V → Except Err V)
    (tn : String) (ctx ctx2 : C) (opts : RegistryOpts) (cfg cfg2 : V) (hot hot1 : Hot V) (v : V)
    (h : fromHotMemoryRegisterWithConfig fc tn ctx opts cfg hot = (.ok v, hot1)) :
    fromHotMemoryRegisterWithConfig fc2 tn ctx2 opts cfg2 hot1 = (.ok v, hot1) :=
  fromHotWithConfig_hit fc2 tn ctx2 opts cfg2 hot1 v
    (fromHotWithConfig_key fc tn ctx opts cfg hot hot1 v h)

theorem create_repeat_of_noConfig_entry {C V : Type} (r0 : DiRegistry C V) (k : String)
    (g : C → RegistryOpts → Except Err V) (ctx ctx2 : C) (cfg cfg2 : V) (opts : RegistryOpts)
    (v : V) (r1 : DiRegistry C V)
    (hreg : r0.registrations k = some (fun c o _ h => fromHotMemoryRegisterNoConfig g k c o h))
    (h : r0.create ctx k cfg opts = (.ok v, r1)) :
    r1.create ctx2 k cfg2 opts = (.ok v, r1) := by
  simp [DiRegistry.create, hreg] at h
  rcases h with ⟨h1, h2⟩
  have hw : fromHotMemoryRegisterNoConfig g k ctx opts r0.hotInstances
      = (.ok v, (fromHotMemoryRegisterNoConfig g k ctx opts r0.hotInstances).2) := by
    rw [← h1]
  have hrep := fromHotNoConfig_repeat g g k ctx ctx2 opts r0.hotInstances
    (fromHotMemoryRegisterNoConfig g k ctx opts r0.hotInstances).2 v hw
  subst h2
  simp [DiRegistry.create, hreg, hrep]

theorem create_repeat_of_withConfig_entry {C V : Type} (r0 : DiRegistry C V) (k : String)
    (g : C → RegistryOpts → V → Except Err V) (ctx ctx2 : C) (cfg cfg2 : V)
    (opts : RegistryOpts) (v : V) (r1 : DiRegistry C V)
    (hreg : r0.registrations k = some (fromHotMemoryRegisterWithConfig g k))
    (h : r0.create ctx k cfg opts = (.ok v, r1)) :
    r1.create ctx2 k cfg2 opts = (.ok v, r1) := by
  simp [DiRegistry.create, hreg] at h
  rcases h with ⟨h1, h2⟩
  have hw : fromHotMemoryRegisterWithConfig g k ctx opts cfg r0.hotInstances
      = (.ok v, (fromHotMemoryRegisterWithConfig g k ctx opts cfg r0.hotInstances).2) := by
    rw [← h1]
  have hrep := fromHotWithConfig_repeat g g k ctx ctx2 opts cfg cfg2 r0.hotInstances
    (fromHotMemoryRegisterWithConfig g k ctx opts cfg r0.hotInstances).2 v hw
  subst h2
  simp [DiRegistry.create, hreg, hrep]

theorem createConfiguration_repeat_of_entry {C V : Type} (r0 : DiRegistry C V) (k : String)
    (g : C → RegistryOpts → Except Err V) (ctx ctx2 : C) (opts : RegistryOpts)
    (v : V) (r1 : DiRegistry C V)
    (hreg : r0.configurationRegistrations k = some (fromHotMemoryRegisterNoConfig g k))
    (h : r0.createConfiguration ctx k opts = (.ok v, r1)) :
    r1.createConfiguration ctx2 k opts = (.ok v, r1) := by
  simp [DiRegistry.createConfiguration, hreg] at h
  rcases h with ⟨h1, h2⟩
  have hw : fromHotMemoryRegisterNoConfig g k ctx opts r0.hotInstances
      = (.ok v, (fromHotMemoryRegisterNoConfig g k ctx opts r0.hotInstances).2) := by
    rw [← h1]
  have hrep := fromHotNoConfig_repeat g g k ctx ctx2 opts r0.hotInstances
    (fromHotMemoryRegisterNoConfig g k ctx opts r0.hotInstances).2 v hw
  subst h2
  simp [DiRegistry.createConfiguration, hreg, hrep]

/-- C1: every registration made through Register, RegisterConfiguration or
RegisterPair stores its factory wrapped in the hot-memory singleton
wrapper: a cache hit for the type key returns the cached value without
running the underlying factory (the outcome does not depend on the
factory), a cache miss runs the factory, stores its result under the
key, and returns it; consequently, once a creation call for a
registered type key succeeds, every later creation call for the same
key against the same registry returns the identical value and leaves
the registry unchanged. -/
theorem c1_singleton_memoization {C V : Type}
    (fn : C → RegistryOpts → Except Err V) (fc : C → RegistryOpts → V → Except Err V)
    (tn tnT tnCT : String) (ctx ctx2 : C) (opts : RegistryOpts) (hot : Hot V)
    (r : DiRegistry C V) :
    (∀ v, hot (hotKey opts tn) = some v →
        fromHotMemoryRegisterNoConfig fn tn ctx opts hot = (.ok v, hot)
        ∧ ∀ cfg, fromHotMemoryRegisterWithConfig fc tn ctx opts cfg hot = (.ok v, hot))
    ∧ (hot (hotKey opts tn) = none → ∀ v, fn ctx opts = .ok v →
        fromHotMemoryRegisterNoConfig fn tn ctx opts hot
          = (.ok v, setHotInstance hot opts tn v))
    ∧ (hot (hotKey opts tn) = none → ∀ cfg v, fc ctx opts cfg = .ok v →
        fromHotMemoryRegisterWithConfig fc tn ctx opts cfg hot
          = (.ok v, setHotInstance hot opts tn v))
    ∧ (∀ cfg cfg2 v r1,
        (registerSingleWithToken r tn fn opts).create ctx
          (typeKeyOf tn opts.injectionToken) cfg opts = (.ok v, r1) →
        r1.create ctx2 (typeKeyOf tn opts.injectionToken) cfg2 opts = (.ok v, r1))
    ∧ (∀ v r1,
        (registerSingleConfigurationWithToken r tn fn opts).createConfiguration ctx
          (typeKeyOf tn opts.injectionToken) opts = (.ok v, r1) →
        r1.createConfiguration ctx2 (typeKeyOf tn opts.injectionToken) opts = (.ok v, r1))
    ∧ (∀ cfg cfg2 v r1,
        (registerPairWithToken r tnT tnCT fc fn opts).create ctx
          (PairTypeName (typeKeyOf tnT opts.injectionToken)
            (typeKeyOf tnCT opts.injectionToken)) cfg opts = (.ok v, r1) →
        r1.create ctx2 (PairTypeName (typeKeyOf tnT opts.injectionToken)
          (typeKeyOf tnCT opts.injectionToken)) cfg2 opts = (.ok v, r1))
    ∧ (∀ v r1,
        (registerPairWithToken r tnT tnCT fc fn opts).createConfiguration ctx
          (PairTypeName (typeKeyOf tnCT opts.injectionToken)
            (typeKeyOf tnT opts.injectionToken)) opts = (.ok v, r1) →
        r1.createConfiguration ctx2 (PairTypeName (typeKeyOf tnCT opts.injectionToken)
          (typeKeyOf tnT opts.injectionToken)) opts = (.ok v, r1)) := by
  refine ⟨?_, ?_, ?_, ?_, ?_, ?_, ?_⟩
  · intro v hv
    exact ⟨fromHotNoConfig_hit fn tn ctx opts hot v hv,
      fun cfg => fromHotWithConfig_hit fc tn ctx opts cfg hot v hv⟩
  · intro hmiss v hfn
    simp [fromHotMemoryRegisterNoConfig, getHotInstance, hmiss, errHas, errNew, hfn]
  · intro hmiss cfg v hfc
    simp [fromHotMemoryRegisterWithConfig, getHotInstance, hmiss, errHas, errNew, hfc]
  · intro cfg cfg2 v r1 h
    refine create_repeat_of_noConfig_entry _ _ fn ctx ctx2 cfg cfg2 opts v r1 ?_ h
    simp [registerSingleWithToken, DiRegistry.register]
  · intro v r1 h
    refine createConfiguration_repeat_of_entry _ _ fn ctx ctx2 opts v r1 ?_ h
    simp [registerSingleConfigurationWithToken, DiRegistry.registerConfiguration]
  · intro cfg cfg2 v r1 h
    refine create_repeat_of_withConfig_entry _ _ fc ctx ctx2 cfg cfg2 opts v r1 ?_ h
    simp [registerPairWithToken, DiRegistry.register, DiRegistry.registerConfiguration]
  · intro v r1 h
    refine createConfiguration_repeat_of_entry _ _ fn ctx ctx2 opts v r1 ?_ h
    simp [registerPairWithToken, DiRegistry.register, DiRegistry.registerConfiguration]

def wOpts : RegistryOpts := ⟨"tok", ""⟩

def wFn : Unit → RegistryOpts → Except Err Nat := fun _ _ => .ok 7

def wFc : Unit → RegistryOpts → Nat → Except Err Nat := fun _ _ c => .ok (c + 1)

def wReg : DiRegistry Unit Nat := registerSingleWithToken (NewRegistry Unit Nat) "di.X" wFn wOpts

def wReg1 : DiRegistry Unit Nat :=
  { wReg with hotInstances := setHotInstance hotEmpty wOpts "tok:di.X" 7 }

/-- Witness for C1 at a concrete registry over natural-number instances. -/
theorem c1_singleton_memoization_witness :
    fromHotMemoryRegisterNoConfig wFn "di.X" () wOpts hotEmpty
      = (.ok 7, setHotInstance hotEmpty wOpts "di.X" 7)
    ∧ fromHotMemoryRegisterWithConfig wFc "di.X" () wOpts 3 hotEmpty
      = (.ok 4, setHotInstance hotEmpty wOpts "di.X" 4)
    ∧ wReg1.create () (typeKeyOf "di.X" wOpts.injectionToken) 0 wOpts = (.ok 7, wReg1) :=
  ⟨(c1_singleton_memoization wFn wFc "di.X" "" "" () () wOpts hotEmpty
      (NewRegistry Unit Nat)).2.1 rfl 7 rfl,
   (c1_singleton_memoization wFn wFc "di.X" "" "" () () wOpts hotEmpty
      (NewRegistry Unit Nat)).2.2.1 rfl 3 4 rfl,
   (c1_singleton_memoization wFn wFc "di.X" "" "" () () wOpts hotEmpty
      (NewRegistry Unit Nat)).2.2.2.1 0 0 7 wReg1 (by rfl)⟩

theorem typeKeyOf_ne (tName token : String) (h : token ≠ "") :
    typeKeyOf tName token ≠ tName := by
  simp [typeKeyOf, h]
  intro hEq
  have hlen := congrArg String.length hEq
  simp [String.length_append] at hlen
  exact absurd hlen.2 (by decide)

/-- C2: for a creation call with a non-empty injection token, a
`DependencyMissing`-class failure of the registry under the
token-qualified type key triggers exactly one retry under the
unqualified type key, whose outcome is returned (success verbatim,
failure wrapped with the first error nested); a failure of any other
class is wrapped and returned without a retry; and against a registry
holding only an unqualified binding, a creation call with an unrelated
token succeeds with the unqualified binding's instance. -/
theorem c2_token_fallback {C V : Type} (f : DiRegistry C V) (tName : String) (noop : V)
    (ctx : C) (opts : RegistryOpts) (htok : opts.injectionToken ≠ "") :
    (∀ err f1,
      f.create ctx (typeKeyOf tName opts.injectionToken) noop opts = (.error err, f1) →
      errHas err .dependencyMissing = true →
      (∀ v f2, f1.create ctx tName noop opts = (.ok v, f2) →
        createSingleWithToken f tName noop ctx opts = (.ok v, f2))
      ∧ (∀ e2 f2, f1.create ctx tName noop opts = (.error e2, f2) →
        createSingleWithToken f tName noop ctx opts =
          (.error ((errWrap e2 (msgSecondTry tName) .errorCreatingDependency).withNestedError
            err), f2)))
    ∧ (∀ err f1,
      f.create ctx (typeKeyOf tName opts.injectionToken) noop opts = (.error err, f1) →
      errHas err .dependencyMissing = false →
      createSingleWithToken f tName noop ctx opts =
        (.error (errWrap err (msgFirstTry (typeKeyOf tName opts.injectionToken)
          opts.injectionToken) .errorCreatingDependency), f1))
    ∧ (∀ (fn : C → RegistryOpts → Except Err V) (regOpts : RegistryOpts) (v : V),
      regOpts.injectionToken = "" →
      fn ctx opts = .ok v →
      ∃ r2, createSingleWithToken (registerSingleWithToken (NewRegistry C V) tName fn regOpts)
        tName noop ctx opts = (.ok v, r2)) := by
  refine ⟨?_, ?_, ?_⟩
  · intro err f1 h hmiss
    constructor
    · intro v f2 h2
      simp [createSingleWithToken, h, hmiss, h2]
    · intro e2 f2 h2
      simp [createSingleWithToken, h, hmiss, h2]
  · intro err f1 h hmiss
    simp [createSingleWithToken, h, hmiss]
  · intro fn regOpts v hreg hfn
    have hstore : registerSingleWithToken (NewRegistry C V) tName fn regOpts
        = (NewRegistry C V).register tName
            (fun c o _ h => fromHotMemoryRegisterNoConfig fn tName c o h) := by
      simp [registerSingleWithToken, hreg, typeKeyOf]
    refine ⟨{ registerSingleWithToken (NewRegistry C V) tName fn regOpts with
      hotInstances := setHotInstance hotEmpty opts tName v }, ?_⟩
    rw [hstore]
    simp [createSingleWithToken, DiRegistry.create, DiRegistry.register,
      typeKeyOf_ne tName opts.injectionToken htok, errHas, errNew, NewRegistry,
      fromHotMemoryRegisterNoConfig, getHotInstance, hotEmpty, hfn]

def wRegU : DiRegistry Unit Nat :=
  registerSingleWithToken (NewRegistry Unit Nat) "di.Y" wFn ⟨"", ""⟩

def wRegB : DiRegistry Unit Nat :=
  registerSingleWithToken (NewRegistry Unit Nat) "di.Y"
    (fun _ _ => .error (errNew "boom" .plain)) wOpts

/-- Witness for C2: the token-less fallback returns the unqualified
binding's instance, and a non-missing-class failure is wrapped without
a retry. -/
theorem c2_token_fallback_witness :
    createSingleWithToken wRegU "di.Y" 0 () wOpts
      = (.ok 7, { wRegU with hotInstances := setHotInstance hotEmpty wOpts "di.Y" 7 })
    ∧ createSingleWithToken wRegB "di.Y" 0 () wOpts
      = (.error (errWrap (errNew "boom" .plain) (msgFirstTry "tok:di.Y" "tok")
          .errorCreatingDependency), wRegB) :=
  ⟨((c2_token_fallback wRegU "di.Y" 0 () wOpts (by decide)).1
      (errNew "dependency not registered: tok:di.Y" .dependencyMissing) wRegU rfl rfl).1
      7 { wRegU with hotInstances := setHotInstance hotEmpty wOpts "di.Y" 7 } rfl,
   (c2_token_fallback wRegB "di.Y" 0 () wOpts (by decide)).2.1
      (errNew "boom" .plain) wRegB rfl rfl⟩

/-! ## Concurrent first-use of the hot-instance cache

The check-then-populate sequence of `fromHotMemoryRegisterNoConfig`
(`GetHotInstance` miss, then factory call, then `SetHotInstance`) takes
no lock, and `diRegistry` has no mutex or single-flight gate.  The
following small-step model interleaves two creation calls for the same
type key over the shared hot-instance entry; each atomic step is one
phase of the wrapper's body.  Merging the factory call and the store
into a single atomic step is coarser than the Go code, so every
interleaving of this model is also possible for the code. -/

inductive RacePhase where
  | beforeGet
  | construct
  | done
  deriving DecidableEq, Repr

structure RaceState where
  hot : Option Nat
  constructions : Nat
  pc1 : RacePhase
  pc2 : RacePhase
  deriving DecidableEq, Repr

def racePc (s : RaceState) (t : Bool) : RacePhase := if t then s.pc1 else s.pc2

def raceSetPc (s : RaceState) (t : Bool) (p : RacePhase) : RaceState :=
  if t then { s with pc1 := p } else { s with pc2 := p }

/-- One atomic step of thread `t` running the wrapper's body: the cache
probe short-circuits to done on a hit and otherwise proceeds to the
construction phase, which invokes the factory (counted) and stores its
result in the shared entry. -/
def raceStep (s : RaceState) (t : Bool) : RaceState :=
  match racePc s t with
  | .beforeGet =>
    match s.hot with
    | some _ => raceSetPc s t .done
    | none => raceSetPc s t .construct
  | .construct =>
    raceSetPc { s with constructions := s.constructions + 1, hot := some s.constructions } t .done
  | .done => s

def raceRun (sched : List Bool) (s : RaceState) : RaceState := sched.foldl raceStep s

def raceInit : RaceState := ⟨none, 0, .beforeGet, .beforeGet⟩

/-- Sequential sanity check of the model: when the first call finishes
before the second starts, exactly one construction happens. -/
theorem raceRun_sequential :
    (raceRun [true, true, false] raceInit).constructions = 1 := by decide

/-- C3: the claim that at most one instance is ever constructed per
(Registry, TypeKey) pair fails for the code: when two creation calls
for the same key both probe the empty hot-instance cache before either
stores (schedule probe1, probe2, construct1, construct2), the
underlying factory runs twice. -/
theorem c3_no_concurrent_double_construction :
    (raceRun [true, false, true, false] raceInit).constructions = 2 := by decide

/-! ## Configuration lookup path assembly (part_001) -/

/-- Embedding of `assembleConfigurationLookupPath` (the context argument
is unused in the source). -/
def assembleConfigurationLookupPath (opts : RegistryOpts) : Except Err String :=
  if opts.injectionToken = "" ∧ opts.configNodePath = "" then
    .error (errNew
      "di.*RegistryOpts.InjectionToken and di.*RegistryOpts.ConfigNodePath cannot be both empty"
      .configurationLookup)
  else
    let lp := if opts.injectionToken ≠ "" then
        opts.injectionToken ++ "." ++ opts.configNodePath
      else opts.configNodePath
    if lp = "" then .error (errNew "lookup path cannot be empty" .configurationLookup)
    else .ok lp

/-- C6: path assembly is deterministic: token "a" with fragment "b.c"
yields "a.b.c"; an empty token with fragment "x" yields "x"; both empty
fails with an error; and a successful assembly never returns the empty
path. -/
theorem c6_assemble_path_deterministic :
    assembleConfigurationLookupPath ⟨"a", "b.c"⟩ = .ok "a.b.c"
    ∧ assembleConfigurationLookupPath ⟨"", "x"⟩ = .ok "x"
    ∧ (∃ e, assembleConfigurationLookupPath ⟨"", ""⟩ = .error e)
    ∧ ∀ (opts : RegistryOpts) (s : String),
        assembleConfigurationLookupPath opts = .ok s → s ≠ "" := by
  refine ⟨rfl, rfl, ⟨_, rfl⟩, ?_⟩
  intro opts s h hs
  subst hs
  by_cases h1 : opts.injectionToken = ""
  · by_cases h2 : opts.configNodePath = ""
    · simp [assembleConfigurationLookupPath, h1, h2] at h
    · simp [assembleConfigurationLookupPath, h1, h2] at h
  · have hlp : opts.injectionToken ++ "." ++ opts.configNodePath ≠ "" := by
      intro he
      have hlen := congrArg String.length he
      simp [String.length_append] at hlen
      exact absurd hlen.1.2 (by decide)
    simp [assembleConfigurationLookupPath, h1, hlp] at h

/-- Witness for C6: the success case "a.b.c" is a non-empty path. -/
theorem c6_assemble_path_deterministic_witness : "a.b.c" ≠ "" :=
  c6_assemble_path_deterministic.2.2.2 ⟨"a", "b.c"⟩ "a.b.c" rfl

/-! ## Injection token registration (registry_types.go)

Go panics through `errors.Must` on an invalid or duplicate token; the
panic is rendered as an `Except.error`.  The process-wide
`injectionTokenMap` is threaded as an explicit list of registered
tokens.  Tokens in the verified properties are ASCII, where Go's byte
indexing and this rune-list scan coincide. -/

def injectionTokenEdgeErr (tkn : String) : Err :=
  errNew ("injection token " ++ tkn ++ " cannot start or end with a dot") .plain

def injectionTokenConsecErr (tkn : String) : Err :=
  errNew ("injection token " ++ tkn ++ " cannot contain consecutive dots") .plain

/-- Embedding of the character loop of `RegisterInjectionToken`: at the
first dot found at the start or end of the token the edge error fires;
at the first dot preceded by a dot the consecutive-dots error fires. -/
def tokenDotScanGo (tkn : String) : Nat → Option Char → List Char → Option Err
  | _, _, [] => none
  | i, prev, c :: rest =>
    if c = '.' then
      if i = 0 ∨ i = tkn.length - 1 then some (injectionTokenEdgeErr tkn)
      else if prev = some '.' then some (injectionTokenConsecErr tkn)
      else tokenDotScanGo tkn (i + 1) (some c) rest
    else tokenDotScanGo tkn (i + 1) (some c) rest

/-- Embedding of `RegisterInjectionToken`: duplicate check first, then
the empty check, then the dot scan; on success the token joins the
process-wide set. -/
def RegisterInjectionToken (registered : List String) (tkn : String) :
    Except Err (String × List String) :=
  if tkn ∈ registered then
    .error (errNew ("injection token " ++ tkn ++ " already registered") .plain)
  else if tkn = "" then
    .error (errNew "injection token cannot be empty" .plain)
  else
    match tokenDotScanGo tkn 0 none tkn.data with
    | some e => .error e
    | none => .ok (tkn, tkn :: registered)

/-- C9: the tokens "", ".a", "a." and "a..b" each fail registration,
with pairwise-distinct errors that identify the cause (empty token;
dot at an edge of ".a"; dot at an edge of "a."; consecutive dots);
"a.b.c" succeeds and is recorded in the set; registering "a.b.c" again
fails with the already-registered error; and a successful registration
never removes a previously registered token. -/
theorem c9_token_validation :
    RegisterInjectionToken [] "" = .error (errNew "injection token cannot be empty" .plain)
    ∧ RegisterInjectionToken [] ".a" = .error (injectionTokenEdgeErr ".a")
    ∧ RegisterInjectionToken [] "a." = .error (injectionTokenEdgeErr "a.")
    ∧ RegisterInjectionToken [] "a..b" = .error (injectionTokenConsecErr "a..b")
    ∧ List.Pairwise (· ≠ ·)
        [errNew "injection token cannot be empty" .plain, injectionTokenEdgeErr ".a",
         injectionTokenEdgeErr "a.", injectionTokenConsecErr "a..b"]
    ∧ RegisterInjectionToken [] "a.b.c" = .ok ("a.b.c", ["a.b.c"])
    ∧ RegisterInjectionToken ["a.b.c"] "a.b.c"
        = .error (errNew "injection token a.b.c already registered" .plain)
    ∧ ∀ (m : List String) (t u x : String) (m' : List String),
        t ∈ m → RegisterInjectionToken m u = .ok (x, m') → t ∈ m' := by
  refine ⟨rfl, rfl, rfl, rfl, by decide, rfl, rfl, ?_⟩
  intro m t u x m' ht h
  unfold RegisterInjectionToken at h
  split at h
  · exact absurd h (by simp)
  · split at h
    · exact absurd h (by simp)
    · split at h
      · exact absurd h (by simp)
      · injection h with h
        injection h with h1 h2
        subst h2
        exact List.mem_cons_of_mem _ ht

/-- Witness for C9: a token registered before a later successful
registration is still registered afterwards. -/
theorem c9_token_validation_witness : "x" ∈ ["a.b.c", "x"] :=
  c9_token_validation.2.2.2.2.2.2.2 ["x"] "x" "a.b.c" "a.b.c" ["a.b.c", "x"]
    (by decide) rfl

/-! ## Type-name derivation (registry_types.go TypeName) -/

inductive GoType where
  | named (s : String)
  | ptr (elem : GoType)
  deriving DecidableEq, Repr

/-- Rendering of `reflect.Type.String()` for the modelled Go types. -/
def GoType.str : GoType → String
  | .named s => s
  | .ptr t => "*" ++ t.str

def GoType.isPtr : GoType → Bool
  | .ptr _ => true
  | .named _ => false

/-- Embedding of `TypeName[T](tokens...)`: one level of pointer
indirection is stripped from T, and the first token, when present and
non-empty, prefixes the name with a colon. -/
def TypeName (t : GoType) (tokens : List String) : String :=
  let typeName := match t with
    | .ptr e => e.str
    | .named s => s
  match tokens with
  | tok :: _ => if tok ≠ "" then tok ++ ":" ++ typeName else typeName
  | [] => typeName

/-- C10 counterexample: pointer erasure is one level only, so for the
pointer type T = *di.TestStruct the key derived for *T differs from the
key derived for T. -/
theorem c10_pointer_erasure_counterexample :
    TypeName (.ptr (.ptr (.named "di.TestStruct"))) []
      ≠ TypeName (.ptr (.named "di.TestStruct")) [] := by decide

/-- C10 amended: for every non-pointer type T and every token argument,
the type key derived for *T equals the type key derived for T. -/
theorem c10_pointer_erasure_amended (t : GoType) (tokens : List String)
    (h : t.isPtr = false) : TypeName (.ptr t) tokens = TypeName t tokens := by
  cases t with
  | named s => rcases tokens with _ | ⟨tok, rest⟩ <;> simp [TypeName, GoType.str]
  | ptr e => exact absurd h (by simp [GoType.isPtr])

/-- Witness for C10: the pointer and value forms of di.TestStruct under
the token "test-slug" derive the same key. -/
theorem c10_pointer_erasure_amended_witness :
    TypeName (.ptr (.named "di.TestStruct")) ["test-slug"]
      = TypeName (.named "di.TestStruct") ["test-slug"] :=
  c10_pointer_erasure_amended (.named "di.TestStruct") ["test-slug"] rfl

/-! ## Reflective configuration node lookup (part_001 ConfigurationNodeLookup)

Go values reachable by the reflective walk are modelled as pointer
values (possibly nil), struct values with named fields carrying a json
tag ("" when absent), and all remaining kinds (scalars, maps, slices…)
as opaque base values. -/

inductive GoVal where
  | ptr (v : Option GoVal)
  | strct (fields : List (String × String × GoVal))
  | base (s : String)

/-- Embedding of `strings.Split(s, ".")` on the character run: every
dot separates; the empty string splits into one empty segment. -/
def splitDotChars : List Char → List (List Char)
  | [] => [[]]
  | c :: rest =>
    if c = '.' then [] :: splitDotChars rest
    else
      match splitDotChars rest with
      | h :: t => (c :: h) :: t
      | [] => [[c]]

def goSplitDot (s : String) : List String := (splitDotChars s.data).map List.asString

def lookupNilErr : Err := errNew "nil pointer encountered in path" .plain

def lookupNonStructErr (part : String) : Err :=
  errNew ("cannot access field '" ++ part ++ "' on non-struct type") .plain

def lookupNotFoundErr (part : String) : Err :=
  errNew ("field '" ++ part ++ "' not found") .plain

/-- Embedding of `reflect.Value.FieldByName`: the first field whose name
matches exactly. -/
def fieldByName (fields : List (String × String × GoVal)) (part : String) : Option GoVal :=
  (fields.find? (fun f => f.1 == part)).map (fun f => f.2.2)

/-- Embedding of the json-tag fallback scan: the first field whose tag
equals the segment or whose tag's first comma-separated item equals
it. -/
def fieldByJsonTag (fields : List (String × String × GoVal)) (part : String) : Option GoVal :=
  (fields.find? (fun f => f.2.1 == part || (f.2.1.splitOn ",").headD "" == part)).map
    (fun f => f.2.2)

/-- One iteration of the Go loop body, in statement order: a single
pointer dereference with the nil check, the struct-kind check, then
exact-name matching with the json-tag fallback. -/
def configurationNodeStep (current : GoVal) (part : String) : Except Err GoVal :=
  match (match current with | .ptr v => v | v => some v) with
  | none => .error lookupNilErr
  | some (.strct fields) =>
    match fieldByName fields part with
    | some f => .ok f
    | none =>
      match fieldByJsonTag fields part with
      | some f => .ok f
      | none => .error (lookupNotFoundErr part)
  | some (.ptr _) => .error (lookupNonStructErr part)
  | some (.base _) => .error (lookupNonStructErr part)

/-- Embedding of `ConfigurationNodeLookup`: an empty path returns the
root; otherwise the Go for-loop with early return over the dot-split
segments, as a monadic fold of the loop body. -/
def ConfigurationNodeLookup (c : GoVal) (path : String) : Except Err GoVal :=
  if path = "" then .ok c
  else (goSplitDot path).foldlM configurationNodeStep c

/-- Walk of the segment list exactly as the claim describes it: each
segment in order dereferences a pointer-valued intermediate (a nil
pointer met mid-path fails), fails on a non-struct intermediate,
matches first by exact field name and then by json-tag alias, fails
when both miss; an exhausted segment list returns the current value. -/
def lookupNodeSpecWalk : GoVal → List String → Except Err GoVal
  | cur, [] => .ok cur
  | .ptr none, _ :: _ => .error lookupNilErr
  | .ptr (some (.strct fields)), part :: rest =>
    match fieldByName fields part with
    | some v => lookupNodeSpecWalk v rest
    | none =>
      match fieldByJsonTag fields part with
      | some v => lookupNodeSpecWalk v rest
      | none => .error (lookupNotFoundErr part)
  | .strct fields, part :: rest =>
    match fieldByName fields part with
    | some v => lookupNodeSpecWalk v rest
    | none =>
      match fieldByJsonTag fields part with
      | some v => lookupNodeSpecWalk v rest
      | none => .error (lookupNotFoundErr part)
  | .ptr (some (.ptr _)), part :: _ => .error (lookupNonStructErr part)
  | .ptr (some (.base _)), part :: _ => .error (lookupNonStructErr part)
  | .base _, part :: _ => .error (lookupNonStructErr part)

/-- Claim-side statement of the lookup: empty path returns the root
unchanged, otherwise the described walk of the dot-split segments. -/
def lookupNodeSpec (c : GoVal) (path : String) : Except Err GoVal :=
  if path = "" then .ok c
  else lookupNodeSpecWalk c (goSplitDot path)

theorem exceptBindOk {α β : Type} (v : α) (f : α → Except Err β) :
    (Except.ok v >>= f : Except Err β) = f v := rfl

theorem exceptBindErr {α β : Type} (e : Err) (f : α → Except Err β) :
    (Except.error e >>= f : Except Err β) = Except.error e := rfl

theorem exceptPureEq {α : Type} (v : α) : (pure v : Except Err α) = Except.ok v := rfl

theorem foldlM_step_eq_walk (parts : List String) :
    ∀ cur : GoVal, parts.foldlM configurationNodeStep cur = lookupNodeSpecWalk cur parts := by
  induction parts with
  | nil => intro cur; simp [List.foldlM_nil, lookupNodeSpecWalk, exceptPureEq]
  | cons part rest ih =>
    intro cur
    cases cur with
    | base s => simp [List.foldlM_cons, configurationNodeStep, lookupNodeSpecWalk, exceptBindOk, exceptBindErr]
    | strct fields =>
      cases hf : fieldByName fields part with
      | some v =>
        simp [List.foldlM_cons, configurationNodeStep, lookupNodeSpecWalk, hf, ih, exceptBindOk, exceptBindErr]
      | none =>
        cases ht : fieldByJsonTag fields part with
        | some v =>
          simp [List.foldlM_cons, configurationNodeStep, lookupNodeSpecWalk, hf, ht, ih, exceptBindOk, exceptBindErr]
        | none =>
          simp [List.foldlM_cons, configurationNodeStep, lookupNodeSpecWalk, hf, ht, exceptBindOk, exceptBindErr]
    | ptr v =>
      cases v with
      | none => simp [List.foldlM_cons, configurationNodeStep, lookupNodeSpecWalk, exceptBindOk, exceptBindErr]
      | some inner =>
        cases inner with
        | base s => simp [List.foldlM_cons, configurationNodeStep, lookupNodeSpecWalk, exceptBindOk, exceptBindErr]
        | ptr w => simp [List.foldlM_cons, configurationNodeStep, lookupNodeSpecWalk, exceptBindOk, exceptBindErr]
        | strct fields =>
          cases hf : fieldByName fields part with
          | some v =>
            simp [List.foldlM_cons, configurationNodeStep, lookupNodeSpecWalk, hf, ih, exceptBindOk, exceptBindErr]
          | none =>
            cases ht : fieldByJsonTag fields part with
            | some v =>
              simp [List.foldlM_cons, configurationNodeStep, lookupNodeSpecWalk, hf, ht, ih, exceptBindOk, exceptBindErr]
            | none =>
              simp [List.foldlM_cons, configurationNodeStep, lookupNodeSpecWalk, hf, ht, exceptBindOk, exceptBindErr]

/-- C5: the configuration node lookup returns the root unchanged on an
empty path, and on every value and dot-separated path behaves exactly
as described: segments resolve in order, pointer intermediates are
dereferenced (a nil pointer mid-path fails), non-struct intermediates
fail, each segment matches first by exact field name and then by
json-tag alias (failing when both miss), and the final segment's value
is returned. -/
theorem c5_node_lookup_matches_description :
    (∀ c : GoVal, ConfigurationNodeLookup c "" = .ok c)
    ∧ ∀ (c : GoVal) (path : String), ConfigurationNodeLookup c path = lookupNodeSpec c path := by
  constructor
  · intro c; rfl
  · intro c path
    unfold ConfigurationNodeLookup lookupNodeSpec
    by_cases hp : path = ""
    · simp [hp]
    · simp [hp, foldlM_step_eq_walk]

/-! ## Context construction (part_001 NewContext)

The constructor classifies its variadic arguments by dynamic type — a
`*context` parent, a plain inner execution context, a raw configuration
tree, a typed Configuration — and the classification loop assigns each
matching argument to its slot, so the last argument of each kind wins.
The inner context type `G`, raw tree type `R` and typed Configuration
type `Cfg` are abstract; the external struct-mapper collaborator
`Decode[ConfigRawData]` is the abstract `decode` (its failure path goes
through `errors.Must` and aborts, so only the successful decode is
modelled). -/

structure DiContext (G R Cfg : Type) where
  ctx : G
  rawCfg : Option R
  cfg : Option Cfg
  breadcrumbs : List String

inductive NewContextArg (G R Cfg : Type) where
  | parent (p : DiContext G R Cfg)
  | inner (g : G)
  | raw (r : R)
  | cfg (c : Cfg)

/-- Classification loop of `NewContext`: each argument fills the slot
of its kind, later arguments overwriting earlier ones. -/
def classifyArgs {G R Cfg : Type} (args : List (NewContextArg G R Cfg)) :
    Option (DiContext G R Cfg) × Option G × Option R × Option Cfg :=
  args.foldl (fun acc a =>
    match a with
    | .parent p => (some p, acc.2.1, acc.2.2.1, acc.2.2.2)
    | .inner g => (acc.1, some g, acc.2.2.1, acc.2.2.2)
    | .raw r => (acc.1, acc.2.1, some r, acc.2.2.2)
    | .cfg c => (acc.1, acc.2.1, acc.2.2.1, some c)) (none, none, none, none)

/-- Embedding of `NewContext`: inherit each missing slot from the
parent when one was supplied, default the inner context to Background,
re-derive the raw tree by decoding the typed Configuration whenever one
is present, default the raw tree to the empty map, and start with no
breadcrumbs. -/
def NewContext {G R Cfg : Type} (background : G) (emptyRaw : R) (decode : Cfg → R)
    (args : List (NewContextArg G R Cfg)) : DiContext G R Cfg :=
  let cls := classifyArgs args
  let rawData := match cls.1 with
    | some p => cls.2.2.1 <|> p.rawCfg
    | none => cls.2.2.1
  let cfg := match cls.1 with
    | some p => cls.2.2.2 <|> p.cfg
    | none => cls.2.2.2
  let ctx := match cls.1 with
    | some p => (cls.2.1 <|> some p.ctx).getD background
    | none => cls.2.1.getD background
  let rawData2 := match cfg with
    | some c => some (decode c)
    | none => rawData
  ⟨ctx, some (rawData2.getD emptyRaw), cfg, []⟩

/-- C4 counterexample: a parent carrying a typed Configuration plus an
explicitly supplied raw tree — the constructor decodes the inherited
typed Configuration and discards the supplied raw tree, so the
explicitly supplied raw tree is not the raw configuration of the
resulting Context. -/
theorem c4_context_inheritance_counterexample :
    (NewContext () 0 (fun _ : Unit => 42)
      [.parent ⟨(), some 1, some (), []⟩, .raw 5]).rawCfg ≠ some 5 := by decide

/-- C4 amended: with a parent Context, the typed Configuration and the
inner execution context are each the explicitly supplied argument of
the matching kind when present, and the parent's otherwise; the raw
tree follows the same supplied-else-inherited rule only when the
resulting Context carries no typed Configuration — whenever one is
present (supplied or inherited), the raw tree is re-derived by decoding
it, overriding any supplied or inherited raw tree. -/
theorem c4_context_inheritance_amended {G R Cfg : Type}
    (background : G) (emptyRaw : R) (decode : Cfg → R)
    (p : DiContext G R Cfg) (raw0 : Option R) (cfg0 : Option Cfg) (g0 : Option G) :
    (NewContext background emptyRaw decode
        (.parent p :: ((raw0.map .raw).toList ++ (cfg0.map .cfg).toList
          ++ (g0.map .inner).toList))).cfg = (cfg0 <|> p.cfg)
    ∧ (NewContext background emptyRaw decode
        (.parent p :: ((raw0.map .raw).toList ++ (cfg0.map .cfg).toList
          ++ (g0.map .inner).toList))).ctx = g0.getD p.ctx
    ∧ (NewContext background emptyRaw decode
        (.parent p :: ((raw0.map .raw).toList ++ (cfg0.map .cfg).toList
          ++ (g0.map .inner).toList))).rawCfg
      = some (match cfg0 <|> p.cfg with
          | some c => decode c
          | none => (raw0 <|> p.rawCfg).getD emptyRaw) := by
  obtain ⟨pg, praw, pcfg, pbc⟩ := p
  cases raw0 <;> cases cfg0 <;> cases g0 <;> cases pcfg <;> cases praw <;>
    simp [NewContext, classifyArgs]

/-! ## JSON reference resolver (part_001)

`ResolveDIReferences` works on the document text.  The Go regular
expression `["']?(\$\{di\.([^}]+)\})["']?` becomes an explicit matcher
at a position; scanning advances one character past a failed position
and past the whole match otherwise, as Go's regexp scanning does.  The
structural parse of the nulled skeleton (`gojson.Unmarshal` into
`map[string]interface\x7b\x7d`) and node re-serialization
(`gojson.Marshal`) belong to the external gojson collaborator and are
abstract parameters `parse` and `marshal`. -/

inductive Json where
  | null
  | bool (b : Bool)
  | num (n : Int)
  | str (s : String)
  | arr (elems : List Json)
  | obj (fields : List (String × Json))

def JsonObj : Type := List (String × Json)

def jsonObjGet (m : JsonObj) (k : String) : Option Json :=
  (m.find? (fun f => f.1 == k)).map (fun f => f.2)

def extractNotFoundErr (part path : String) : Err :=
  errNew ("path component \x27" ++ part ++ "\x27 not found in path \x27" ++ path ++ "\x27")
    .plain

def extractNotObjectErr (part path : String) : Err :=
  errNew ("path component \x27" ++ part ++ "\x27 is not an object, cannot navigate further in path \x27"
    ++ path ++ "\x27") .plain

/-- Loop of `ExtractNodeFromJSONPath`: the final segment returns the
value found; an intermediate segment must hold a nested mapping. -/
def extractWalk (path : String) : JsonObj → List String → Except Err Json
  | cur, [] => .ok (.obj cur)
  | cur, [part] =>
    match jsonObjGet cur part with
    | none => .error (extractNotFoundErr part path)
    | some v => .ok v
  | cur, part :: rest =>
    match jsonObjGet cur part with
    | none => .error (extractNotFoundErr part path)
    | some (.obj m) => extractWalk path m rest
    | some _ => .error (extractNotObjectErr part path)

/-- Embedding of `ExtractNodeFromJSONPath`: empty path returns the root
mapping, otherwise the dot-split segments are walked through nested
mappings only. -/
def ExtractNodeFromJSONPath (data : JsonObj) (path : String) : Except Err Json :=
  if path = "" then .ok (.obj data)
  else extractWalk path data (goSplitDot path)

def exceptIsOk {α : Type} : Except Err α → Bool
  | .ok _ => true
  | .error _ => false

def singleQuote : Char := Char.ofNat 39

def isQuoteChar (c : Char) : Bool := c == '"' || c == singleQuote

/-- Character run of the literal placeholder opener. -/
def diMarkChars : List Char := "$\x7bdi.".toList

/-- Go regexp whitespace class `\s` = tab, newline, form feed, carriage
return, space. -/
def isGoSpace (c : Char) : Bool :=
  c == ' ' || c == '\t' || c == '\n' || c == '\x0c' || c == '\r'

/-- Matcher at a position for `["']?(\$\{di\.([^}]+)\})["']?`: returns
the dot-path capture (group 2; group 1 is the path wrapped back into a
placeholder) and the input remaining after the whole match span. -/
def diRefAt (l : List Char) : Option (List Char × List Char) :=
  let l1 := match l with
    | c :: rest => if isQuoteChar c then rest else l
    | [] => l
  if diMarkChars.isPrefixOf l1 then
    let l2 := l1.drop 5
    let path := l2.takeWhile (fun c => c != '\x7d')
    match path, l2.drop path.length with
    | _ :: _, '\x7d' :: l4 =>
      let l5 := match l4 with
        | c :: rest => if isQuoteChar c then rest else l4
        | [] => l4
      some (path, l5)
    | _, _ => none
  else none

/-- Rebuilding of capture group 1 from capture group 2. -/
def diWrap (path : String) : String := "$\x7bdi." ++ path ++ "\x7d"

/-- Scan of `FindAllStringSubmatch` over the original text, collecting
(group 1, group 2) for every non-overlapping match; the fuel is the
input length, an upper bound on the number of scanning steps. -/
def scanDIRefsF : Nat → List Char → List (String × String)
  | 0, _ => []
  | _ + 1, [] => []
  | fuel + 1, c :: rest =>
    match diRefAt (c :: rest) with
    | some (path, after) => (diWrap path.asString, path.asString) :: scanDIRefsF fuel after
    | none => scanDIRefsF fuel rest

def scanDIRefs (s : String) : List (String × String) := scanDIRefsF s.data.length s.data

/-- Replacement pass `re.ReplaceAllString(validJSON, "null")`: every
match span of the placeholder pattern (quotes included) becomes the
bare text null, so the skeleton parses. -/
def nullifyDIRefsF : Nat → List Char → List Char
  | 0, l => l
  | _ + 1, [] => []
  | fuel + 1, c :: rest =>
    match diRefAt (c :: rest) with
    | some (_, after) => "null".toList ++ nullifyDIRefsF fuel after
    | none => c :: nullifyDIRefsF fuel rest

def nullifyDIRefs (s : String) : String := (nullifyDIRefsF s.data.length s.data).asString

/-- Matcher at a position for `:\s*(\$\{di\.[^}]+\})([,\s\}])` of
`makeJSONValid`: returns the placeholder capture, the delimiter
capture, and the remaining input. -/
def mjvAt (l : List Char) : Option (List Char × Char × List Char) :=
  match l with
  | c :: l1 =>
    if c = ':' then
      let ws := l1.takeWhile isGoSpace
      let l2 := l1.drop ws.length
      if diMarkChars.isPrefixOf l2 then
        let l3 := l2.drop 5
        let path := l3.takeWhile (fun x => x != '\x7d')
        match path, l3.drop path.length with
        | _ :: _, '\x7d' :: d :: l5 =>
          if d == ',' || isGoSpace d || d == '\x7d' then some (path, d, l5)
          else none
        | _, _ => none
      else none
    else none
  | [] => none

/-- Embedding of `makeJSONValid`: each match of the unquoted-reference
pattern is replaced by `: "$1"$2`. -/
def makeJSONValidF : Nat → List Char → List Char
  | 0, l => l
  | _ + 1, [] => []
  | fuel + 1, c :: rest =>
    match mjvAt (c :: rest) with
    | some (path, d, l5) =>
      (": \"".toList ++ (diWrap path.asString).toList ++ "\"".toList ++ [d])
        ++ makeJSONValidF fuel l5
    | none => c :: makeJSONValidF fuel rest

def makeJSONValid (s : String) : String := (makeJSONValidF s.data.length s.data).asString

/-- Embedding of `strings.ReplaceAll` for a non-empty pattern (every
pattern passed by the resolver contains a placeholder and is
non-empty). -/
def replaceAllF : Nat → List Char → List Char → List Char → List Char
  | 0, l, _, _ => l
  | _ + 1, [], _, _ => []
  | fuel + 1, c :: rest, pat, rep =>
    if pat.isPrefixOf (c :: rest) then
      rep ++ replaceAllF fuel ((c :: rest).drop pat.length) pat rep
    else c :: replaceAllF fuel rest pat rep

def replaceAllStr (s pat rep : String) : String :=
  (replaceAllF s.data.length s.data pat.data rep.data).asString

/-- Loop of `ResolveDIReferences` that builds the replacement table in
scan order, skipping placeholders already resolved and failing on the
first unresolvable one.  (Go stores the table in a map and later
iterates it in unspecified order; insertion order is used here.) -/
def buildReplacements (rawData : JsonObj) (marshal : Json → String) :
    List (String × String) → List (String × String) → Except Err (List (String × String))
  | acc, [] => .ok acc
  | acc, (m1, m2) :: rest =>
    if (acc.find? (fun q => q.1 == m1)).isSome then
      buildReplacements rawData marshal acc rest
    else
      match ExtractNodeFromJSONPath rawData m2 with
      | .error e => .error (errWrap e ("failed to resolve DI reference " ++ m1) .plain)
      | .ok node => buildReplacements rawData marshal (acc ++ [(m1, marshal node)]) rest

/-- Embedding of `ResolveDIReferences`: quote bare references, parse
the nulled skeleton (external `parse`; its failure is the
malformed-document error), resolve every distinct placeholder against
the skeleton, then substitute each placeholder's serialized node for
its quoted and bare spellings. -/
def ResolveDIReferences (parse : String → Option JsonObj) (marshal : Json → String)
    (jsonStr : String) : Except Err String :=
  let validJSON := makeJSONValid jsonStr
  let tempJSON := nullifyDIRefs validJSON
  match parse tempJSON with
  | none => .error (errNew "failed to parse JSON for DI resolution" .plain)
  | some rawData =>
    match buildReplacements rawData marshal [] (scanDIRefs jsonStr) with
    | .error e => .error e
    | .ok repls =>
      .ok (repls.foldl (fun res pr =>
        replaceAllStr (replaceAllStr res ("\"" ++ pr.1 ++ "\"") pr.2) pr.1 pr.2) validJSON)

/-- Occurrence check for the literal placeholder opener in a character
run: some suffix starts with it. -/
def hasDI : List Char → Bool
  | [] => false
  | l@(_ :: rest) => diMarkChars.isPrefixOf l || hasDI rest

theorem hasDI_of_isPrefixOf (l : List Char) (h : diMarkChars.isPrefixOf l = true) :
    hasDI l = true := by
  cases l with
  | nil => exact absurd h (by decide)
  | cons c rest => simp [hasDI, h]

theorem hasDI_of_isPrefixOf_drop (l : List Char) :
    ∀ n : Nat, diMarkChars.isPrefixOf (l.drop n) = true → hasDI l = true := by
  induction l with
  | nil => intro n h; rw [List.drop_nil] at h; exact absurd h (by decide)
  | cons c rest ih =>
    intro n h
    cases n with
    | zero => exact hasDI_of_isPrefixOf _ h
    | succ m =>
      rw [List.drop_succ_cons] at h
      simp [hasDI, ih m h]

theorem diRefAt_hasDI (l : List Char) (x : List Char × List Char)
    (h : diRefAt l = some x) : hasDI l = true := by
  cases l with
  | nil =>
    rw [show diRefAt [] = none from rfl] at h
    exact Option.noConfusion h
  | cons c rest =>
    by_cases hq : isQuoteChar c = true
    · by_cases hp : diMarkChars.isPrefixOf rest = true
      · simp [hasDI, hasDI_of_isPrefixOf rest hp]
      · simp [diRefAt, hq, hp] at h
    · by_cases hp : diMarkChars.isPrefixOf (c :: rest) = true
      · simp [hasDI, hp]
      · simp [diRefAt, hq, hp] at h

theorem mjvAt_hasDI (l : List Char) (x : List Char × Char × List Char)
    (h : mjvAt l = some x) : hasDI l = true := by
  cases l with
  | nil =>
    rw [show mjvAt [] = none from rfl] at h
    exact Option.noConfusion h
  | cons c rest =>
    by_cases hc : c = ':'
    · by_cases hp : diMarkChars.isPrefixOf (rest.drop (rest.takeWhile isGoSpace).length) = true
      · simp [hasDI, hasDI_of_isPrefixOf_drop rest _ hp]
      · simp [mjvAt, hc, hp] at h
    · simp [mjvAt, hc] at h

theorem diRefAt_none (l : List Char) (h : hasDI l = false) : diRefAt l = none := by
  cases hd : diRefAt l with
  | none => rfl
  | some x => exact absurd (diRefAt_hasDI l x hd) (by simp [h])

theorem mjvAt_none (l : List Char) (h : hasDI l = false) : mjvAt l = none := by
  cases hd : mjvAt l with
  | none => rfl
  | some x => exact absurd (mjvAt_hasDI l x hd) (by simp [h])

theorem hasDI_cons_false (c : Char) (rest : List Char)
    (h : hasDI (c :: rest) = false) : hasDI rest = false := by
  simp [hasDI] at h
  exact h.2

theorem makeJSONValidF_id :
    ∀ (fuel : Nat) (l : List Char), hasDI l = false → makeJSONValidF fuel l = l := by
  intro fuel
  induction fuel with
  | zero => intro l h; rfl
  | succ n ih =>
    intro l h
    cases l with
    | nil => rfl
    | cons c rest =>
      simp [makeJSONValidF, mjvAt_none _ h, ih rest (hasDI_cons_false c rest h)]

theorem nullifyDIRefsF_id :
    ∀ (fuel : Nat) (l : List Char), hasDI l = false → nullifyDIRefsF fuel l = l := by
  intro fuel
  induction fuel with
  | zero => intro l h; rfl
  | succ n ih =>
    intro l h
    cases l with
    | nil => rfl
    | cons c rest =>
      simp [nullifyDIRefsF, diRefAt_none _ h, ih rest (hasDI_cons_false c rest h)]

theorem scanDIRefsF_nil :
    ∀ (fuel : Nat) (l : List Char), hasDI l = false → scanDIRefsF fuel l = [] := by
  intro fuel
  induction fuel with
  | zero => intro l h; rfl
  | succ n ih =>
    intro l h
    cases l with
    | nil => rfl
    | cons c rest =>
      simp [scanDIRefsF, diRefAt_none _ h, ih rest (hasDI_cons_false c rest h)]

theorem makeJSONValid_id (s : String) (h : hasDI s.data = false) : makeJSONValid s = s := by
  unfold makeJSONValid
  rw [makeJSONValidF_id s.data.length s.data h]
  rfl

theorem nullifyDIRefs_id (s : String) (h : hasDI s.data = false) : nullifyDIRefs s = s := by
  unfold nullifyDIRefs
  rw [nullifyDIRefsF_id s.data.length s.data h]
  rfl

theorem scanDIRefs_nil (s : String) (h : hasDI s.data = false) : scanDIRefs s = [] := by
  unfold scanDIRefs
  rw [scanDIRefsF_nil s.data.length s.data h]

/-- C8 counterexample: a document with no placeholder whose skeleton
does not parse as a JSON object (gojson fails on the text `not json`;
the external parser collaborator is instantiated accordingly) makes the
resolver fail instead of passing the document through. -/
theorem c8_no_placeholder_counterexample :
    ResolveDIReferences (fun _ => none) (fun _ => "") "not json" ≠ .ok "not json" := by
  intro h
  rw [show ResolveDIReferences (fun _ => none) (fun _ => "") "not json"
    = .error (errNew "failed to parse JSON for DI resolution" .plain) from rfl] at h
  exact Except.noConfusion h

/-- C8 amended: a document that contains no occurrence of the
placeholder opener and whose nulled skeleton the external parser
accepts passes through the resolver unchanged, character for
character. -/
theorem c8_no_placeholder_amended (parse : String → Option JsonObj) (marshal : Json → String)
    (jsonStr : String) (rawData : JsonObj)
    (hnone : hasDI jsonStr.data = false)
    (hparse : parse jsonStr = some rawData) :
    ResolveDIReferences parse marshal jsonStr = .ok jsonStr := by
  simp only [ResolveDIReferences, makeJSONValid_id jsonStr hnone,
    nullifyDIRefs_id jsonStr hnone, hparse, scanDIRefs_nil jsonStr hnone]
  rfl

def wParse8 : String → Option JsonObj :=
  fun s => if s = "\x7b\"a\": 1\x7d" then some [("a", Json.num 1)] else none

/-- Witness for C8 (amended): a small placeholder-free JSON object
passes through unchanged. -/
theorem c8_no_placeholder_amended_witness :
    ResolveDIReferences wParse8 (fun _ => "") "\x7b\"a\": 1\x7d" = .ok "\x7b\"a\": 1\x7d" :=
  c8_no_placeholder_amended wParse8 (fun _ => "") "\x7b\"a\": 1\x7d" [("a", Json.num 1)]
    (by decide) rfl

theorem scanDIRefsF_shape :
    ∀ (fuel : Nat) (l : List Char) (p : String × String),
      p ∈ scanDIRefsF fuel l → p.1 = diWrap p.2 := by
  intro fuel
  induction fuel with
  | zero => intro l p hp; simp [scanDIRefsF] at hp
  | succ n ih =>
    intro l p hp
    cases l with
    | nil => simp [scanDIRefsF] at hp
    | cons c rest =>
      cases hd : diRefAt (c :: rest) with
      | some pr =>
        rw [show scanDIRefsF (n + 1) (c :: rest)
          = (diWrap pr.1.asString, pr.1.asString) :: scanDIRefsF n pr.2 by
            simp [scanDIRefsF, hd]] at hp
        rcases List.mem_cons.mp hp with rfl | hp2
        · rfl
        · exact ih pr.2 p hp2
      | none =>
        rw [show scanDIRefsF (n + 1) (c :: rest) = scanDIRefsF n rest by
          simp [scanDIRefsF, hd]] at hp
        exact ih rest p hp

theorem diWrap_inj (a b : String) (h : diWrap a = diWrap b) : a = b := by
  unfold diWrap at h
  have hd := congrArg String.data h
  simp [String.data_append] at hd
  exact String.ext hd

theorem buildReplacements_error (rawData : JsonObj) (marshal : Json → String) :
    ∀ (ms acc : List (String × String)),
      (∀ p ∈ ms, p.1 = diWrap p.2) →
      (∀ q ∈ acc, ∃ path node, q.1 = diWrap path
        ∧ ExtractNodeFromJSONPath rawData path = .ok node) →
      (∃ p ∈ ms, exceptIsOk (ExtractNodeFromJSONPath rawData p.2) = false) →
      ∃ e, buildReplacements rawData marshal acc ms = .error e := by
  intro ms
  induction ms with
  | nil =>
    intro acc hshape hacc hfail
    rcases hfail with ⟨p, hp, _⟩
    exact absurd hp (by simp)
  | cons hd tl ih =>
    obtain ⟨m1, m2⟩ := hd
    intro acc hshape hacc hfail
    by_cases hdup : (acc.find? (fun q => q.1 == m1)).isSome = true
    · rw [Option.isSome_iff_exists] at hdup
      rcases hdup with ⟨q, hq⟩
      have hqmem := List.mem_of_find?_eq_some hq
      have hqpred : q.1 = m1 := by simpa using List.find?_some hq
      rcases hacc q hqmem with ⟨path, node, hq1, hq2⟩
      have hm1 : m1 = diWrap m2 := hshape (m1, m2) (by simp)
      have hpatheq : path = m2 := diWrap_inj _ _ (by rw [← hq1, hqpred, hm1])
      have hok : exceptIsOk (ExtractNodeFromJSONPath rawData m2) = true := by
        rw [← hpatheq, hq2]; rfl
      rcases hfail with ⟨p, hp, hpf⟩
      rcases List.mem_cons.mp hp with rfl | hptl
      · rw [hok] at hpf; exact absurd hpf (by simp)
      · obtain ⟨e, he⟩ := ih acc (fun p hp2 => hshape p (List.mem_cons_of_mem _ hp2)) hacc
          ⟨p, hptl, hpf⟩
        refine ⟨e, ?_⟩
        rw [show buildReplacements rawData marshal acc ((m1, m2) :: tl)
          = buildReplacements rawData marshal acc tl by
            simp [buildReplacements, hq, Option.isSome_iff_exists]]
        exact he
    · cases hx : ExtractNodeFromJSONPath rawData m2 with
      | error e =>
        exact ⟨errWrap e ("failed to resolve DI reference " ++ m1) .plain,
          by simp [buildReplacements, hdup, hx]⟩
      | ok node =>
        rcases hfail with ⟨p, hp, hpf⟩
        rcases List.mem_cons.mp hp with rfl | hptl
        · rw [hx] at hpf; exact absurd hpf (by simp [exceptIsOk])
        · have hacc2 : ∀ q ∈ acc ++ [(m1, marshal node)], ∃ path node2,
              q.1 = diWrap path ∧ ExtractNodeFromJSONPath rawData path = .ok node2 := by
            intro q hq
            rcases List.mem_append.mp hq with hq2 | hq2
            · exact hacc q hq2
            · rcases List.mem_singleton.mp hq2 with rfl
              exact ⟨m2, node, hshape (m1, m2) (by simp), hx⟩
          obtain ⟨e, he⟩ := ih (acc ++ [(m1, marshal node)])
            (fun p hp2 => hshape p (List.mem_cons_of_mem _ hp2)) hacc2 ⟨p, hptl, hpf⟩
          exact ⟨e, by simp [buildReplacements, hdup, hx, he]⟩

/-- C7: when any distinct placeholder found in the document has a path
that does not resolve against the parsed skeleton (walking dot-split
keys through nested mappings only), the whole reference-resolution
operation fails with an error and returns no substituted document — in
particular no substitution of placeholders that were resolvable in the
same pass (the Go function returns the empty string with the error). -/
theorem c7_unresolvable_reference_fails (parse : String → Option JsonObj)
    (marshal : Json → String) (jsonStr : String) (rawData : JsonObj)
    (hparse : parse (nullifyDIRefs (makeJSONValid jsonStr)) = some rawData)
    (hfail : ∃ p ∈ scanDIRefs jsonStr,
      exceptIsOk (ExtractNodeFromJSONPath rawData p.2) = false) :
    ∃ e, ResolveDIReferences parse marshal jsonStr = .error e := by
  have hshape : ∀ p ∈ scanDIRefs jsonStr, p.1 = diWrap p.2 :=
    fun p hp => scanDIRefsF_shape _ _ p hp
  obtain ⟨e, he⟩ := buildReplacements_error rawData marshal (scanDIRefs jsonStr) []
    hshape (by simp) hfail
  refine ⟨e, ?_⟩
  simp only [ResolveDIReferences, hparse, he]

def wDoc7 : String :=
  "\x7b\"$shared\": \x7b\"cache\": 1\x7d, \"x\": \"$\x7bdi.$shared.cache\x7d\", \"y\": \"$\x7bdi.missing\x7d\"\x7d"

def wRaw7 : JsonObj :=
  [("$shared", Json.obj [("cache", Json.num 1)]), ("x", Json.null), ("y", Json.null)]

/-- Witness for C7: a document holding one resolvable and one
unresolvable placeholder makes the whole resolution fail. -/
theorem c7_unresolvable_reference_fails_witness :
    ∃ e, ResolveDIReferences (fun _ => some wRaw7) (fun _ => "") wDoc7 = .error e :=
  c7_unresolvable_reference_fails (fun _ => some wRaw7) (fun _ => "") wDoc7 wRaw7 rfl
    ⟨(diWrap "missing", "missing"), by decide, by decide⟩

end DiGo
